import Mathlib

/-!
Verification development for the tradinggui stock-metrics pipeline
(`src/analysis/metrics.py`, `src/data/database.py`).  Python floats are
modelled as exact rationals; the IEEE special values produced by numpy
division are modelled by the `PyF` type.  Fallible Python code is modelled
with `Except`/`Option`.
-/

namespace TradingGui

/-- Digits of a decimal numeral folded into a natural number. -/
def digitsToNat (cs : List Char) : ℕ :=
  cs.foldl (fun n c => 10 * n + (c.toNat - '0'.toNat)) 0

/-- Unsigned part of Python `float()` on a plain decimal string:
digits, optionally followed by `.` and more digits; at least one digit
overall.  (Exponents and `inf`/`nan` literals are not used by this code.) -/
def parseUnsigned (cs : List Char) : Option ℚ :=
  let intPart := cs.takeWhile (·.isDigit)
  let rest := cs.dropWhile (·.isDigit)
  match rest with
  | [] => if intPart.isEmpty then none else some (digitsToNat intPart : ℚ)
  | '.' :: frac =>
    if intPart.isEmpty && frac.isEmpty then none
    else if frac.all (·.isDigit) then
      some ((digitsToNat intPart : ℚ) + (digitsToNat frac : ℚ) / (10 ^ frac.length))
    else none
  | _ => none

/-- Strip leading and trailing whitespace from a character list. -/
def trimWs (cs : List Char) : List Char :=
  ((cs.dropWhile (·.isWhitespace)).reverse.dropWhile (·.isWhitespace)).reverse

/-- Python `float()` on a character list: surrounding whitespace ignored,
optional sign, then a plain decimal numeral; `none` models `ValueError`. -/
def pyFloatChars (cs : List Char) : Option ℚ :=
  match trimWs cs with
  | '-' :: rest => (parseUnsigned rest).map Neg.neg
  | '+' :: rest => parseUnsigned rest
  | rest => parseUnsigned rest

/-- Python `float()` on a string. -/
def pyFloat (s : String) : Option ℚ := pyFloatChars s.toList

/-- Python `needle in hay` / pandas `str.contains` (the patterns used here
have no regex metacharacters, so this is plain substring search). -/
def strContains (hay needle : String) : Bool :=
  hay.toList.tails.any (fun t => needle.toList.isPrefixOf t)

/-- `str(value_str).strip().replace(',', '')` from `_convert_market_cap`. -/
def cleanedChars (s : String) : List Char :=
  (trimWs s.toList).filter (· ≠ ',')

/-- `StockMetricsCalculator._convert_market_cap` (metrics.py:278-297).
Empty string or `"N/A"` gives `None`; otherwise the stripped, de-comma'd
string is checked with `endswith` against `'T'`,`'B'`,`'M'`,`'K'` (in that
order, case-sensitively) and the prefix is parsed with `float()`, the
`ValueError`/`AttributeError` handler turning parse failures into `None`. -/
def convertMarketCap (s : String) : Option ℚ :=
  if s = "" ∨ s = "N/A" then none
  else
    let t := cleanedChars s
    match t.getLast? with
    | some 'T' => (pyFloatChars t.dropLast).map (· * (10:ℚ) ^ 12)
    | some 'B' => (pyFloatChars t.dropLast).map (· * (10:ℚ) ^ 9)
    | some 'M' => (pyFloatChars t.dropLast).map (· * (10:ℚ) ^ 6)
    | some 'K' => (pyFloatChars t.dropLast).map (· * (10:ℚ) ^ 3)
    | _ => pyFloatChars t

example : pyFloat "28.45" = some (2845 / 100) := by
  simp +decide [pyFloat, pyFloatChars, parseUnsigned, trimWs, digitsToNat,
    List.dropWhile, List.takeWhile]
  norm_num
example : pyFloat "-5" = some (-5) := by
  simp +decide [pyFloat, pyFloatChars, parseUnsigned, trimWs, digitsToNat,
    List.dropWhile, List.takeWhile]
example : pyFloat "abc" = none := by decide
example : convertMarketCap "8.71B" = some (871 / 100 * 10 ^ 9) := by
  simp +decide [convertMarketCap, cleanedChars, pyFloatChars, parseUnsigned,
    trimWs, digitsToNat, List.dropWhile, List.takeWhile]
  norm_num
example : convertMarketCap "2k" = none := by decide
example : convertMarketCap "N/A" = none := by decide
example : strContains "Market Cap (intraday)" "Market Cap" = true := by decide
example : strContains "Forward P/E (1y)" "Trailing P/E" = false := by decide

/-- The nine valuation fields of `calculate_valuation_metrics`
(metrics.py:194-204); every field is nullable. -/
structure ValuationMetrics where
  pe_ratio : Option ℚ
  pb_ratio : Option ℚ
  ps_ratio : Option ℚ
  peg_ratio : Option ℚ
  forward_pe : Option ℚ
  market_cap : Option ℚ
  enterprise_value : Option ℚ
  ebitda : Option ℚ
  ebitda_ev : Option ℚ
deriving DecidableEq

/-- The all-`None` metrics dictionary from metrics.py:194-204 (also returned
by the outer exception handler, metrics.py:264-276). -/
def emptyValuation : ValuationMetrics :=
  ⟨none, none, none, none, none, none, none, none, none⟩

/-- A valuation-stats table row: (Attribute, Recent) string pair, the first
two columns kept by `val = valuation_stats.iloc[:, :2]` (metrics.py:208-209). -/
abbrev ValRows := List (String × String)

/-- `val[val.Attribute.str.contains(key)]` followed by `.iloc[0, 1]`:
the value of the first row whose attribute contains `key`. -/
def findVal (rows : ValRows) (key : String) : Option String :=
  (rows.find? (fun r => strContains r.1 key)).map (·.2)

/-- One extraction of the shape
`row = val[...contains(key)]; if not row.empty: metrics[k] = float(row.iloc[0,1])`
(metrics.py:212-235).  `float()` raising `ValueError` is the `.error` case. -/
def stepParse (key : String) (set : ValuationMetrics → ℚ → ValuationMetrics)
    (rows : ValRows) : ValuationMetrics → Except Unit ValuationMetrics := fun m =>
  match findVal rows key with
  | none => .ok m
  | some v =>
    match pyFloat v with
    | none => .error ()
    | some q => .ok (set m q)

/-- One extraction of the shape
`if not row.empty: metrics[k] = self._convert_market_cap(row.iloc[0,1])`
(metrics.py:238-253); `_convert_market_cap` never raises. -/
def stepConvert (key : String) (set : ValuationMetrics → Option ℚ → ValuationMetrics)
    (rows : ValRows) : ValuationMetrics → Except Unit ValuationMetrics := fun m =>
  .ok (match findVal rows key with
       | none => m
       | some v => set m (convertMarketCap v))

/-- `if metrics["ebitda"] and metrics["enterprise_value"] and
metrics["enterprise_value"] != 0: metrics["ebitda_ev"] = ebitda / ev`
(metrics.py:255-257).  Python truthiness: `None` and `0.0` are falsy. -/
def applyEbitdaEv (m : ValuationMetrics) : ValuationMetrics :=
  match m.ebitda, m.enterprise_value with
  | some e, some v => if e ≠ 0 ∧ v ≠ 0 then { m with ebitda_ev := some (e / v) } else m
  | _, _ => m

/-- The extraction sequence inside the inner `try` of
`calculate_valuation_metrics` (metrics.py:211-257), in source order. -/
def valSteps (rows : ValRows) : List (ValuationMetrics → Except Unit ValuationMetrics) :=
  [ stepParse "Trailing P/E" (fun m q => { m with pe_ratio := some q }) rows,
    stepParse "Price/Book" (fun m q => { m with pb_ratio := some q }) rows,
    stepParse "Price/Sales" (fun m q => { m with ps_ratio := some q }) rows,
    stepParse "PEG" (fun m q => { m with peg_ratio := some q }) rows,
    stepParse "Forward P/E" (fun m q => { m with forward_pe := some q }) rows,
    stepConvert "Market Cap" (fun m v => { m with market_cap := v }) rows,
    stepConvert "Enterprise Value" (fun m v => { m with enterprise_value := v }) rows,
    stepConvert "EBITDA" (fun m v => { m with ebitda := v }) rows,
    fun m => .ok (applyEbitdaEv m) ]

/-- Runs extraction steps under one `try/except (ValueError, IndexError,
KeyError)` (metrics.py:211-260): the first failing step aborts the rest and
the metrics accumulated so far are returned (the handler only logs). -/
def runSteps : List (ValuationMetrics → Except Unit ValuationMetrics) →
    ValuationMetrics → ValuationMetrics
  | [], m => m
  | s :: rest, m =>
    match s m with
    | .error _ => m
    | .ok m' => runSteps rest m'

/-- Runs extraction steps recording whether all of them succeeded
(`none` = some step raised); used to state which initial segment of the
sequence ran.  Mirrors `runSteps` on the all-success path. -/
def runStepsOk : List (ValuationMetrics → Except Unit ValuationMetrics) →
    ValuationMetrics → Option ValuationMetrics
  | [], m => some m
  | s :: rest, m =>
    match s m with
    | .error _ => none
    | .ok m' => runStepsOk rest m'

/-- `StockMetricsCalculator.calculate_valuation_metrics` (metrics.py:188-276),
as a function of the outcome of the `_get_valuation_stats` fetch
(`.error` = the fetch raised after its retries; `.ok none` = it returned
`None`).  The outer `except Exception` returns the all-`None` dictionary; a
fetch returning no rows leaves the initial all-`None` dictionary untouched. -/
def calcValuationMetrics (fetch : Except Unit (Option ValRows)) : ValuationMetrics :=
  match fetch with
  | .error _ => emptyValuation
  | .ok none => emptyValuation
  | .ok (some rows) =>
    if rows.isEmpty then emptyValuation
    else runSteps (valSteps rows) emptyValuation

/-- A numpy `float64` value: an exact finite rational, or one of the IEEE
special values that arise from division by zero. -/
inductive PyF where
  | fin : ℚ → PyF
  | pinf : PyF
  | ninf : PyF
  | nan : PyF
deriving DecidableEq

/-- `not (np.isnan v) and not (np.isinf v)` — the validity test applied to
each required numeric field (metrics.py:398-400). -/
def PyF.isFiniteB : PyF → Bool
  | .fin _ => true
  | _ => false

/-- The numpy expression `(last - m) / m * 100` on `float64` values
(metrics.py:184-185): division by zero yields `±inf` (or `nan` when the
numerator is also zero) instead of raising, and multiplying by 100
preserves the special value. -/
def pctAbove (last m : ℚ) : PyF :=
  if m = 0 then
    if last - m > 0 then .pinf
    else if last - m < 0 then .ninf
    else .nan
  else .fin ((last - m) / m * 100)

/-- `close_prices.rolling(window=100).mean().iloc[-1]`: the arithmetic mean
of the last 100 closes (metrics.py:172). -/
def ma100 (closes : List ℚ) : ℚ :=
  ((closes.drop (closes.length - 100)).sum) / 100

/-- One step of pandas `Series.ewm(span=100).mean()` with the default
`adjust=True`: running weighted numerator and weight total, each previous
weight decayed by `1 - α`. -/
def emaStep (r : ℚ) (acc : ℚ × ℚ) (x : ℚ) : ℚ × ℚ :=
  (acc.1 * r + x, acc.2 * r + 1)

/-- `close_prices.ewm(span=100).mean().iloc[-1]` (metrics.py:173): pandas'
adjusted exponentially weighted mean over the whole series,
`Σ (1-α)^i x_{n-1-i} / Σ (1-α)^i` with `α = 2/(span+1)`. -/
def emaAdjLast (α : ℚ) (closes : List ℚ) : ℚ :=
  let p := closes.foldl (emaStep (1 - α)) (0, 0)
  p.1 / p.2

/-- Modelled from the spec: "`ema_100` = exponential moving average over the
same closes with smoothing factor `2 / (100 + 1)`, seeded by the standard
recursive definition (no artificial adjustment)" — `y_0 = x_0`,
`y_t = (1-α) y_(t-1) + α x_t`.  Stated for comparison with the pandas
computation actually performed by the source. -/
def emaRecursiveSpec (α : ℚ) : List ℚ → ℚ
  | [] => 0
  | x :: xs => xs.foldl (fun y c => (1 - α) * y + α * c) x

/-- The five momentum outputs of `calculate_momentum_metrics`
(metrics.py:180-186). -/
structure MomentumMetrics where
  last_price : PyF
  ma_100 : PyF
  ema_100 : PyF
  pct_above_ma_100 : PyF
  pct_above_ema_100 : PyF
deriving DecidableEq

/-- `StockMetricsCalculator.calculate_momentum_metrics` (metrics.py:166-186)
on the close column; `.error` models the `ValueError("Insufficient
historical data")` raised when fewer than 100 bars are present.  The closes
are the provider's finite floats; the only operation that can produce an
IEEE special value is the percentage division. -/
def calculateMomentumMetrics (closes : List ℚ) : Except Unit MomentumMetrics :=
  if closes.length < 100 then .error ()
  else
    let ma := ma100 closes
    let ema := emaAdjLast (2 / 101) closes
    let last := (closes.getLast?).getD 0
    .ok { last_price := .fin last
          ma_100 := .fin ma
          ema_100 := .fin ema
          pct_above_ma_100 := pctAbove last ma
          pct_above_ema_100 := pctAbove last ema }

/-- The combined per-ticker dictionary built by `get_metrics`
(metrics.py:329-333): ticker, the five momentum fields and the nine
valuation fields. -/
structure MetricsRecord where
  ticker : String
  last_price : PyF
  ma_100 : PyF
  ema_100 : PyF
  pct_above_ma_100 : PyF
  pct_above_ema_100 : PyF
  pe_ratio : Option ℚ
  pb_ratio : Option ℚ
  ps_ratio : Option ℚ
  peg_ratio : Option ℚ
  forward_pe : Option ℚ
  market_cap : Option ℚ
  enterprise_value : Option ℚ
  ebitda : Option ℚ
  ebitda_ev : Option ℚ
deriving DecidableEq

/-- `{"ticker": ticker, **momentum_metrics, **valuation_metrics}`
(metrics.py:329-333). -/
def combineMetrics (t : String) (m : MomentumMetrics) (v : ValuationMetrics) :
    MetricsRecord :=
  { ticker := t
    last_price := m.last_price
    ma_100 := m.ma_100
    ema_100 := m.ema_100
    pct_above_ma_100 := m.pct_above_ma_100
    pct_above_ema_100 := m.pct_above_ema_100
    pe_ratio := v.pe_ratio
    pb_ratio := v.pb_ratio
    ps_ratio := v.ps_ratio
    peg_ratio := v.peg_ratio
    forward_pe := v.forward_pe
    market_cap := v.market_cap
    enterprise_value := v.enterprise_value
    ebitda := v.ebitda
    ebitda_ev := v.ebitda_ev }

/-- `StockMetricsCalculator._validate_momentum_metrics` (metrics.py:384-403).
All required keys are always present in the combined dictionary, so the
membership check passes; a required numeric field fails validation exactly
when it is NaN or ±inf (`isinstance` + `np.isnan`/`np.isinf`). -/
def validateMomentumMetrics (r : MetricsRecord) : Bool :=
  r.last_price.isFiniteB && r.ma_100.isFiniteB && r.ema_100.isFiniteB &&
  r.pct_above_ma_100.isFiniteB && r.pct_above_ema_100.isFiniteB

/-- A network fetch performed for a ticker: an invocation of
`_get_historical_data` or of `_get_valuation_stats`. -/
inductive FetchEvent where
  | histFetch : String → FetchEvent
  | valFetch : String → FetchEvent
deriving DecidableEq

/-- Outcome oracle for `_get_historical_data` after its retry layer:
`.error` = it still raised; `.ok none` = it returned `None` (no data);
`.ok closes` = the close column of the returned frame. -/
abbrev HistOracle := String → Except Unit (Option (List ℚ))

/-- Outcome oracle for `_get_valuation_stats` after its retry layer. -/
abbrev ValOracle := String → Except Unit (Option ValRows)

/-- `StockMetricsCalculator.get_metrics` (metrics.py:299-344), returning the
record (or `None`) together with the network fetches performed.  The
historical fetch always happens first; the valuation fetch happens only
when 100 bars were obtained; every exception is caught and becomes `None`. -/
def getMetricsRun (hO : HistOracle) (vO : ValOracle) (t : String) :
    Option MetricsRecord × List FetchEvent :=
  match hO t with
  | .error _ => (none, [.histFetch t])
  | .ok none => (none, [.histFetch t])
  | .ok (some closes) =>
    if closes.length < 100 then (none, [.histFetch t])
    else
      match calculateMomentumMetrics closes with
      | .error _ => (none, [.histFetch t])
      | .ok mom =>
        let vm := calcValuationMetrics (vO t)
        let r := combineMetrics t mom vm
        (if validateMomentumMetrics r then some r else none,
         [.histFetch t, .valFetch t])

/-- Successive slices `tickers[i:i+b]` for `i in range(0, len(tickers), b)`
(metrics.py:353-354), for a positive step `b`; the fuel argument is the
list length, enough for one element consumed per slice. -/
def chunksAux : ℕ → ℕ → List String → List (List String)
  | 0, _, _ => []
  | _, _, [] => []
  | fuel + 1, b, x :: xs => (x :: xs.take (b - 1)) :: chunksAux fuel b (xs.drop (b - 1))

/-- The batches of `get_metrics_batch`. -/
def chunks (b : ℕ) (l : List String) : List (List String) :=
  chunksAux l.length b l

/-- `StockMetricsCalculator.get_metrics_batch` (metrics.py:346-382), with
the fetches it performs.  `batch_size = 0` makes `range(0, n, 0)` raise
`ValueError` (the `.error` case); a negative step makes the range empty, so
no ticker is processed.  Otherwise every ticker of every slice goes through
`get_metrics` (its own `try/except` skips failures) and the non-`None`
results are appended in order. -/
def getMetricsBatchRun (hO : HistOracle) (vO : ValOracle)
    (tickers : List String) (b : ℤ) :
    Except Unit (List MetricsRecord) × List FetchEvent :=
  if b = 0 then (.error (), [])
  else if b < 0 then (.ok [], [])
  else
    let runs := (chunks b.toNat tickers).flatMap
      (fun batch => batch.map (getMetricsRun hO vO))
    (.ok (runs.filterMap (·.1)), runs.flatMap (·.2))

/-- A stored row of the `StockMetrics` table as seen by the staleness check:
ticker and `updated_at` (seconds since the epoch). -/
structure DbRow where
  ticker : String
  updated_at : ℤ
deriving DecidableEq

/-- `Database.has_recent_metrics` (database.py:63-74): the maximum
`updated_at` for the ticker, if any, compared against
`datetime.utcnow() - latest < timedelta(days=age_limit_days)`. -/
def hasRecentMetrics (rows : List DbRow) (now : ℤ) (t : String)
    (ageLimitDays : ℤ) : Bool :=
  match ((rows.filter (fun r => r.ticker = t)).map (·.updated_at)).max? with
  | none => false
  | some latest => decide (now - latest < ageLimitDays * 86400)

/-- The exception classes that reach the tenacity retry predicate in
`_get_historical_data` (metrics.py:40-44). -/
inductive PyErr where
  | requestException : PyErr
  | assertionError : PyErr
  | valueError : PyErr
  | other : PyErr
deriving DecidableEq

/-- `retry_if_exception_type((requests.exceptions.RequestException,
AssertionError, ValueError))` (metrics.py:43): rate-limit (HTTP 429 /
yahoo_fin `AssertionError`) and transient-network errors fall in the first
two classes and are retried; anything else propagates at once. -/
def retryable : PyErr → Bool
  | .requestException => true
  | .assertionError => true
  | .valueError => true
  | .other => false

/-- How a `@retry`-wrapped fetch terminates: `.exhausted e` is tenacity's
`RetryError` raised to the caller after the attempt ceiling, wrapping the
last error `e`; `.raised e` is a non-retryable error propagating directly. -/
inductive RetryFail where
  | exhausted : PyErr → RetryFail
  | raised : PyErr → RetryFail
deriving DecidableEq

/-- `wait_exponential(multiplier=3, min=8, max=60)` (metrics.py:42): the
sleep after the n-th failed attempt, `3 * 2^(n-1)` clamped to `[8, 60]`. -/
def waitExp (n : ℕ) : ℕ :=
  max 8 (min 60 (3 * 2 ^ (n - 1)))

/-- The `@retry(stop=stop_after_attempt(5), ...)` loop (metrics.py:40-44)
over an attempt oracle `f` (the body's outcome on attempt number `made`):
a success returns immediately; a retryable error sleeps `waitExp` and
retries while budget remains, else the RetryError propagates; a
non-retryable error propagates at once.  Returns (attempts made, sleeps
performed, outcome). -/
def runRetryAux {α : Type} (f : ℕ → Except PyErr α) :
    ℕ → ℕ → ℕ × List ℕ × Except RetryFail α
  | 0, made => (made, [], .error (.exhausted .other))
  | budget + 1, made =>
    match f made with
    | .ok a => (made + 1, [], .ok a)
    | .error e =>
      if retryable e then
        if budget = 0 then (made + 1, [], .error (.exhausted e))
        else
          let rest := runRetryAux f budget (made + 1)
          (rest.1, waitExp (made + 1) :: rest.2.1, rest.2.2)
      else (made + 1, [], .error (.raised e))

/-- A call of a fetch method wrapped by
`@retry(stop=stop_after_attempt(5), wait=wait_exponential(multiplier=3,
min=8, max=60), retry=retry_if_exception_type(...))`. -/
def tenacityCall {α : Type} (f : ℕ → Except PyErr α) :
    ℕ × List ℕ × Except RetryFail α :=
  runRetryAux f 5 0

/-! Helper lemmas. -/

theorem chunksAux_flatMap (b : ℕ) :
    ∀ (fuel : ℕ) (l : List String), l.length ≤ fuel →
      (chunksAux fuel b l).flatMap id = l := by
  intro fuel
  induction fuel with
  | zero =>
    intro l hl
    cases l with
    | nil => simp [chunksAux]
    | cons x xs => simp at hl
  | succ n ih =>
    intro l hl
    cases l with
    | nil => simp [chunksAux]
    | cons x xs =>
      have hxs : xs.length ≤ n := by simpa using hl
      have hd : (xs.drop (b - 1)).length ≤ n := by
        rw [List.length_drop]; omega
      simp only [chunksAux, List.flatMap_cons, id]
      rw [ih _ hd]
      simp [List.take_append_drop]

theorem chunks_flatMap (b : ℕ) (l : List String) :
    (chunks b l).flatMap id = l :=
  chunksAux_flatMap b l.length l (le_refl _)

theorem flatMap_map_eq {α : Type} (l : List (List String)) (f : String → α) :
    (l.flatMap (fun c => c.map f)) = (l.flatMap id).map f := by
  induction l with
  | nil => rfl
  | cons c cs ih => simp [List.flatMap_cons, ih]

theorem foldl_emaStep_split (r : ℚ) (l : List ℚ) : ∀ (a d : ℚ),
    l.foldl (emaStep r) (a, d) =
      (l.foldl (fun x y => x * r + y) a, l.foldl (fun x _ => x * r + 1) d) := by
  induction l with
  | nil => intro a d; rfl
  | cons c cs ih => intro a d; simp only [List.foldl_cons, emaStep]; exact ih _ _

theorem foldl_den_eq_sum (r : ℚ) (l : List ℚ) :
    l.foldl (fun x _ => x * r + 1) 0 = ∑ i in Finset.range l.length, r ^ i := by
  induction l using List.reverseRecOn with
  | nil => simp
  | append_singleton l x ih =>
    rw [List.foldl_append]
    simp only [List.foldl_cons, List.foldl_nil, List.length_append, List.length_singleton]
    rw [ih, geom_sum_succ]
    ring

theorem foldl_num_eq_sum (r : ℚ) (l : List ℚ) :
    l.foldl (fun x y => x * r + y) 0 =
      ∑ i in Finset.range l.length, r ^ i * l.reverse.getD i 0 := by
  induction l using List.reverseRecOn with
  | nil => simp
  | append_singleton l x ih =>
    rw [List.foldl_append]
    simp only [List.foldl_cons, List.foldl_nil, List.length_append, List.length_singleton,
      List.reverse_append, List.reverse_singleton, List.singleton_append]
    rw [Finset.sum_range_succ']
    simp only [List.getD_cons_succ, List.getD_cons_zero, pow_zero, one_mul]
    rw [ih, Finset.sum_mul]
    congr 1
    apply Finset.sum_congr rfl
    intro i _
    ring

theorem foldl_num_replicate_one (r : ℚ) : ∀ (n : ℕ) (a : ℚ),
    (List.replicate n (1:ℚ)).foldl (fun x y => x * r + y) a
      = (List.replicate n (1:ℚ)).foldl (fun x _ => x * r + 1) a := by
  intro n
  induction n with
  | zero => intro a; rfl
  | succ k ih => intro a; simp only [List.replicate_succ, List.foldl_cons]; exact ih _

/-- pandas' adjusted `ewm` mean over a constant series of ones is 1. -/
theorem emaAdjLast_ones : emaAdjLast (2 / 101) (List.replicate 100 (1:ℚ)) = 1 := by
  unfold emaAdjLast
  rw [foldl_emaStep_split]
  simp only
  rw [foldl_num_replicate_one, foldl_den_eq_sum]
  have hpos : 0 < ∑ i in Finset.range (List.replicate 100 (1:ℚ)).length, (1 - 2/101 : ℚ) ^ i := by
    apply geom_sum_pos (by norm_num)
    simp
  exact div_self (ne_of_gt hpos)

theorem ma100_ones : ma100 (List.replicate 100 (1:ℚ)) = 1 := by
  unfold ma100
  simp only [List.length_replicate, Nat.sub_self, List.drop_zero, List.sum_replicate]
  norm_num

theorem momentum_ones :
    calculateMomentumMetrics (List.replicate 100 (1:ℚ)) =
      .ok ⟨.fin 1, .fin 1, .fin 1, .fin 0, .fin 0⟩ := by
  unfold calculateMomentumMetrics
  rw [if_neg (by simp)]
  have hlast : (List.replicate 100 (1:ℚ)).getLast? = some 1 := by
    rw [show (100:ℕ) = 99 + 1 from rfl, List.replicate_succ']
    exact List.getLast?_concat _
  simp only [hlast, Option.getD_some, ma100_ones, emaAdjLast_ones]
  have hpct : pctAbove 1 1 = .fin 0 := by
    unfold pctAbove
    rw [if_neg (by norm_num)]
    norm_num
  rw [hpct]

/-- For a positive batch size, `get_metrics_batch` collects the per-ticker
results in input order and performs the per-ticker fetches in input order. -/
theorem getMetricsBatchRun_pos (hO : HistOracle) (vO : ValOracle)
    (tickers : List String) (b : ℤ) (hb : 1 ≤ b) :
    getMetricsBatchRun hO vO tickers b =
      (.ok (tickers.filterMap (fun t => (getMetricsRun hO vO t).1)),
       tickers.flatMap (fun t => (getMetricsRun hO vO t).2)) := by
  have h0 : ¬ b = 0 := by omega
  have h1 : ¬ b < 0 := by omega
  unfold getMetricsBatchRun
  rw [if_neg h0, if_neg h1]
  rw [flatMap_map_eq, chunks_flatMap]
  simp only [List.filterMap_map, List.flatMap_map]
  rfl

/-- Oracle: every historical fetch succeeds with 100 bars of constant 1. -/
def onesHist : HistOracle := fun _ => .ok (some (List.replicate 100 (1:ℚ)))

/-- Oracle: the historical fetch returns `None` (no data) for every ticker
— still a network attempt. -/
def noneHist : HistOracle := fun _ => .ok none

/-- Oracle: the historical fetch raises for ticker `"BAD"` and succeeds
with 100 constant bars otherwise. -/
def mixedHist : HistOracle := fun t =>
  if t = "BAD" then .error () else .ok (some (List.replicate 100 (1:ℚ)))

/-- Oracle: every valuation fetch raises (after its retries). -/
def errVal : ValOracle := fun _ => .error ()

/-- The record produced from 100 constant closes of 1 and a failed
valuation fetch. -/
def recOnes (t : String) : MetricsRecord :=
  combineMetrics t ⟨.fin 1, .fin 1, .fin 1, .fin 0, .fin 0⟩ emptyValuation

theorem getMetricsRun_of_ok (hO : HistOracle) (vO : ValOracle) (t : String)
    (h : hO t = .ok (some (List.replicate 100 (1:ℚ)))) (hv : vO t = .error ()) :
    getMetricsRun hO vO t = (some (recOnes t), [.histFetch t, .valFetch t]) := by
  unfold getMetricsRun
  simp only [h, hv, List.length_replicate, momentum_ones]
  rfl

theorem getMetricsRun_ones (t : String) :
    getMetricsRun onesHist errVal t = (some (recOnes t), [.histFetch t, .valFetch t]) :=
  getMetricsRun_of_ok onesHist errVal t rfl rfl

/-- The historical fetch is attempted on every `get_metrics` call. -/
theorem histFetch_mem_run (hO : HistOracle) (vO : ValOracle) (t : String) :
    FetchEvent.histFetch t ∈ (getMetricsRun hO vO t).2 := by
  unfold getMetricsRun
  cases hhist : hO t with
  | error e => simp
  | ok o =>
    cases o with
    | none => simp
    | some closes =>
      by_cases hlen : closes.length < 100
      · simp [hlen]
      · cases hm : calculateMomentumMetrics closes with
        | error e => simp [hlen, hm]
        | ok mom => simp [hlen, hm]

theorem length_sub_filterMap {α β : Type} (f : α → Option β) (l : List α) :
    l.length - (l.filterMap f).length = (l.filter (fun a => (f a).isNone)).length := by
  induction l with
  | nil => rfl
  | cons x xs ih =>
    have hle : (xs.filterMap f).length ≤ xs.length := List.length_filterMap_le f xs
    cases hfx : f x with
    | none => simp [List.filterMap_cons, hfx, List.filter_cons, ← ih]; omega
    | some b => simp [List.filterMap_cons, hfx, List.filter_cons, ← ih]

/-! Claim C1. -/

/-- A persisted row for AAPL, 10 seconds before the chosen "now". -/
def dbAapl : List DbRow := [⟨"AAPL", 1000⟩]

/-- C1 counterexample: the staleness check reports AAPL as updated within
the freshness window, yet the batch run performs one historical fetch
attempt for AAPL (not zero) — `get_metrics_batch` never consults
`has_recent_metrics` and has no skip transition. -/
theorem c1_counterexample :
    hasRecentMetrics dbAapl 1010 "AAPL" 1 = true ∧
    (getMetricsBatchRun noneHist errVal ["AAPL"] 10).2.count
      (FetchEvent.histFetch "AAPL") = 1 := by
  constructor
  · decide
  · rfl

/-- C1 (amended): the batch pipeline never consults the staleness check —
for every ticker in the input list, even one whose persisted record
`has_recent_metrics` reports as updated within the freshness window, at
least one historical-data fetch attempt is performed (there is no
`PENDING → SKIPPED` transition). -/
theorem c1_amended_no_skip (hO : HistOracle) (vO : ValOracle)
    (db : List DbRow) (now limit : ℤ) (tickers : List String) (b : ℤ)
    (t : String) (hb : 1 ≤ b) (ht : t ∈ tickers)
    (_hfresh : hasRecentMetrics db now t limit = true) :
    0 < (getMetricsBatchRun hO vO tickers b).2.count (FetchEvent.histFetch t) := by
  rw [getMetricsBatchRun_pos hO vO tickers b hb]
  apply List.count_pos_iff.mpr
  exact List.mem_flatMap.mpr ⟨t, ht, histFetch_mem_run hO vO t⟩

/-- C1 amended witness at a concrete fresh ticker. -/
theorem c1_amended_witness :
    (1:ℤ) ≤ 10 ∧ "AAPL" ∈ ["AAPL"] ∧
    hasRecentMetrics dbAapl 1010 "AAPL" 1 = true ∧
    0 < (getMetricsBatchRun noneHist errVal ["AAPL"] 10).2.count
      (FetchEvent.histFetch "AAPL") :=
  ⟨by decide, by decide, by decide,
   c1_amended_no_skip noneHist errVal dbAapl 1010 1 ["AAPL"] 10 "AAPL"
     (by decide) (by decide) (by decide)⟩

/-! Claim C9. -/

/-- C9: for every ticker list and positive batch size, the batch run does
not raise, returns in order exactly the records of the tickers whose
per-ticker pipeline succeeded (failures are omitted), and the failure
count `total - successes` equals the number of failed tickers. -/
theorem c9_batch_isolates_failures (hO : HistOracle) (vO : ValOracle)
    (tickers : List String) (b : ℤ) (hb : 1 ≤ b) :
    (getMetricsBatchRun hO vO tickers b).1 =
      .ok (tickers.filterMap (fun t => (getMetricsRun hO vO t).1)) ∧
    tickers.length -
        (tickers.filterMap (fun t => (getMetricsRun hO vO t).1)).length =
      (tickers.filter (fun t => ((getMetricsRun hO vO t).1).isNone)).length := by
  constructor
  · rw [getMetricsBatchRun_pos hO vO tickers b hb]
  · exact length_sub_filterMap _ tickers

/-- C9 witness: one always-failing ticker among two succeeding ones. -/
theorem c9_witness :
    (getMetricsBatchRun mixedHist errVal ["AAPL", "BAD", "MSFT"] 10).1 =
        .ok (["AAPL", "BAD", "MSFT"].filterMap
          (fun t => (getMetricsRun mixedHist errVal t).1)) ∧
    (["AAPL", "BAD", "MSFT"] : List String).length -
        (["AAPL", "BAD", "MSFT"].filterMap
          (fun t => (getMetricsRun mixedHist errVal t).1)).length =
      (["AAPL", "BAD", "MSFT"].filter
        (fun t => ((getMetricsRun mixedHist errVal t).1).isNone)).length :=
  c9_batch_isolates_failures mixedHist errVal ["AAPL", "BAD", "MSFT"] 10 (by decide)

/-! Claim C10. -/

/-- C10 counterexample: with batch size −1 the Python range is empty, so
the run returns an empty list even though the single input ticker's
pipeline succeeds — its record does not appear at all, refuting the claim
for arbitrary (non-positive) batch sizes. -/
theorem c10_counterexample :
    (getMetricsBatchRun onesHist errVal ["AAPL"] (-1)).1 = .ok [] ∧
    (getMetricsRun onesHist errVal "AAPL").1 = some (recOnes "AAPL") ∧
    ((Except.ok ([] : List MetricsRecord) : Except Unit (List MetricsRecord)) ≠
      .ok [recOnes "AAPL"]) := by
  refine ⟨rfl, ?_, by simp⟩
  rw [getMetricsRun_ones]

/-- C10 (amended): for every ticker list and every positive batch size,
the batch run returns exactly the successful records in the relative order
in which their tickers appear in the input list. -/
theorem c10_amended_order_preserved (hO : HistOracle) (vO : ValOracle)
    (tickers : List String) (b : ℤ) (hb : 1 ≤ b) :
    (getMetricsBatchRun hO vO tickers b).1 =
      .ok (tickers.filterMap (fun t => (getMetricsRun hO vO t).1)) := by
  rw [getMetricsBatchRun_pos hO vO tickers b hb]

/-- C10 amended witness at a concrete three-ticker list with batch size 2. -/
theorem c10_amended_witness :
    (getMetricsBatchRun onesHist errVal ["A", "B", "C"] 2).1 =
      .ok (["A", "B", "C"].filterMap (fun t => (getMetricsRun onesHist errVal t).1)) :=
  c10_amended_order_preserved onesHist errVal ["A", "B", "C"] 2 (by decide)

/-! Claim C2. -/

theorem runRetryAux_step_ok {α : Type} (f : ℕ → Except PyErr α)
    (budget made : ℕ) (v : α) (h : f made = .ok v) :
    runRetryAux f (budget + 1) made = (made + 1, [], .ok v) := by
  simp [runRetryAux, h]

theorem runRetryAux_step_retry {α : Type} (f : ℕ → Except PyErr α)
    (budget made : ℕ) (e : PyErr) (h : f made = .error e)
    (hr : retryable e = true) (hb : budget ≠ 0) :
    runRetryAux f (budget + 1) made =
      ((runRetryAux f budget (made + 1)).1,
       waitExp (made + 1) :: (runRetryAux f budget (made + 1)).2.1,
       (runRetryAux f budget (made + 1)).2.2) := by
  simp [runRetryAux, h, hr, hb]

theorem runRetryAux_step_last {α : Type} (f : ℕ → Except PyErr α)
    (made : ℕ) (e : PyErr) (h : f made = .error e) (hr : retryable e = true) :
    runRetryAux f 1 made = (made + 1, [], .error (.exhausted e)) := by
  simp [runRetryAux, h, hr]

/-- C2: each fetch's `@retry` wrapper retries retryable (rate-limited and
transient-network) errors up to the fixed 5-attempt ceiling with a clamped
exponential backoff schedule; failures on the first two attempts followed
by success on the third return the successful result after exactly 3
attempts; and when all 5 attempts fail, the last error propagates to the
caller wrapped in the retry-exhausted exception rather than being
swallowed. -/
theorem c2_retry_policy :
    (∀ (f : ℕ → Except PyErr ℚ) (e0 e1 : PyErr) (v : ℚ),
      f 0 = .error e0 → retryable e0 = true →
      f 1 = .error e1 → retryable e1 = true →
      f 2 = .ok v →
      tenacityCall f = (3, [waitExp 1, waitExp 2], .ok v)) ∧
    (∀ (f : ℕ → Except PyErr ℚ),
      (∀ i, i < 5 → ∃ e, f i = .error e ∧ retryable e = true) →
      ∃ e, f 4 = .error e ∧
        tenacityCall f =
          (5, [waitExp 1, waitExp 2, waitExp 3, waitExp 4],
           .error (.exhausted e))) ∧
    (∀ n : ℕ, 8 ≤ waitExp (n + 1) ∧ waitExp (n + 1) ≤ 60 ∧
      waitExp (n + 1) ≤ waitExp (n + 2)) := by
  refine ⟨?_, ?_, ?_⟩
  · intro f e0 e1 v h0 hr0 h1 hr1 h2
    unfold tenacityCall
    rw [show (5:ℕ) = 4 + 1 from rfl,
      runRetryAux_step_retry f 4 0 e0 h0 hr0 (by norm_num)]
    rw [show (4:ℕ) = 3 + 1 from rfl,
      runRetryAux_step_retry f 3 1 e1 h1 hr1 (by norm_num)]
    rw [show (3:ℕ) = 2 + 1 from rfl, runRetryAux_step_ok f 2 2 v h2]
  · intro f hf
    obtain ⟨e0, h0, hr0⟩ := hf 0 (by norm_num)
    obtain ⟨e1, h1, hr1⟩ := hf 1 (by norm_num)
    obtain ⟨e2, h2, hr2⟩ := hf 2 (by norm_num)
    obtain ⟨e3, h3, hr3⟩ := hf 3 (by norm_num)
    obtain ⟨e4, h4, hr4⟩ := hf 4 (by norm_num)
    refine ⟨e4, h4, ?_⟩
    unfold tenacityCall
    rw [show (5:ℕ) = 4 + 1 from rfl,
      runRetryAux_step_retry f 4 0 e0 h0 hr0 (by norm_num)]
    rw [show (4:ℕ) = 3 + 1 from rfl,
      runRetryAux_step_retry f 3 1 e1 h1 hr1 (by norm_num)]
    rw [show (3:ℕ) = 2 + 1 from rfl,
      runRetryAux_step_retry f 2 2 e2 h2 hr2 (by norm_num)]
    rw [show (2:ℕ) = 1 + 1 from rfl,
      runRetryAux_step_retry f 1 3 e3 h3 hr3 (by norm_num)]
    rw [runRetryAux_step_last f 4 e4 h4 hr4]
  · intro n
    refine ⟨le_max_left _ _, ?_, ?_⟩
    · exact max_le (by norm_num) (min_le_left _ _)
    · apply max_le_max (le_refl 8)
      apply min_le_min (le_refl 60)
      apply Nat.mul_le_mul_left
      apply Nat.pow_le_pow_right (by norm_num)
      omega

/-- C2 witness: a fetch body failing with a rate-limit error on attempts 1
and 2 and succeeding on attempt 3. -/
theorem c2_witness :
    tenacityCall
        (fun i => if i < 2 then (Except.error PyErr.requestException : Except PyErr ℚ)
                  else .ok 7) =
      (3, [waitExp 1, waitExp 2], .ok 7) :=
  c2_retry_policy.1 _ .requestException .requestException 7 rfl rfl rfl rfl rfl

/-! Claim C7. -/

/-- C7 counterexample: the claim requires case-insensitive suffix matching,
so `"2k"` should coerce to `2 * 1e3 = 2000`; the code's `endswith('K')`
checks only the uppercase letter, `float("2k")` raises, and the handler
returns `None`. -/
theorem c7_counterexample :
    convertMarketCap "2k" = none ∧ (none : Option ℚ) ≠ some 2000 :=
  ⟨by decide, by simp⟩

/-- C7 (amended): suffixes are matched case-sensitively — for a nonempty
string other than `"N/A"` whose stripped, de-comma'd form ends in an
uppercase `T`/`B`/`M`/`K`, the result is the prefix parsed by `float()`
times the suffix factor (null when the prefix fails to parse); when the
last character is not one of those four, the whole string is parsed as a
plain float, null on failure — in particular lowercase-suffixed strings
take the plain-float path; empty and `"N/A"` inputs give null.  No input
raises. -/
theorem c7_amended_suffix_case_sensitive :
    (∀ (s : String) (c : Char) (fct : ℚ),
      s ≠ "" → s ≠ "N/A" →
      (c, fct) ∈ [('T', (10:ℚ)^12), ('B', (10:ℚ)^9), ('M', (10:ℚ)^6), ('K', (10:ℚ)^3)] →
      (cleanedChars s).getLast? = some c →
      convertMarketCap s = (pyFloatChars (cleanedChars s).dropLast).map (· * fct)) ∧
    (∀ s : String, s ≠ "" → s ≠ "N/A" →
      (∀ c, (cleanedChars s).getLast? = some c → c ∉ (['T', 'B', 'M', 'K'] : List Char)) →
      convertMarketCap s = pyFloatChars (cleanedChars s)) ∧
    convertMarketCap "" = none ∧ convertMarketCap "N/A" = none := by
  refine ⟨?_, ?_, by decide, by decide⟩
  · intro s c fct hne hna hmem hlast
    unfold convertMarketCap
    rw [if_neg (by simp [hne, hna])]
    simp only [List.mem_cons, List.not_mem_nil, or_false, Prod.mk.injEq] at hmem
    rcases hmem with ⟨hc, hf⟩ | ⟨hc, hf⟩ | ⟨hc, hf⟩ | ⟨hc, hf⟩ <;> subst hc <;> subst hf <;>
      simp only [hlast]
  · intro s hne hna hnotin
    unfold convertMarketCap
    rw [if_neg (by simp [hne, hna])]
    dsimp only
    split
    · next heq => exact absurd (by decide) (hnotin _ heq)
    · next heq => exact absurd (by decide) (hnotin _ heq)
    · next heq => exact absurd (by decide) (hnotin _ heq)
    · next heq => exact absurd (by decide) (hnotin _ heq)
    · rfl

/-- C7 amended witness: `"2.5K"` takes the uppercase-`K` branch. -/
theorem c7_amended_witness :
    convertMarketCap "2.5K" =
      (pyFloatChars (cleanedChars "2.5K").dropLast).map (· * (10:ℚ)^3) :=
  c7_amended_suffix_case_sensitive.1 "2.5K" 'K' ((10:ℚ)^3)
    (by decide) (by decide) (by decide) (by decide)

/-! Claim C8. -/

/-- A valuation-stats table with a positive EBITDA and a negative
enterprise value. -/
def c8rows : ValRows := [("EBITDA", "3"), ("Enterprise Value", "-5")]

/-- State after the Enterprise Value extraction on `c8rows`. -/
def c8m7 : ValuationMetrics := ⟨none, none, none, none, none, none, some (-5), none, none⟩

/-- State after the EBITDA extraction on `c8rows`. -/
def c8m8 : ValuationMetrics := ⟨none, none, none, none, none, none, some (-5), some 3, none⟩

/-- Final valuation metrics on `c8rows`. -/
def c8result : ValuationMetrics :=
  ⟨none, none, none, none, none, none, some (-5), some 3, some ((3 : ℚ) / -5)⟩

theorem c8_calc_eval : calcValuationMetrics (.ok (some c8rows)) = c8result := rfl

/-- C8 counterexample: with `ebitda = 3` and `enterprise_value = -5` the
code computes `ebitda_ev = 3 / -5` even though the claim requires the
ratio to be null whenever the enterprise value is negative. -/
theorem c8_counterexample :
    (calcValuationMetrics (.ok (some c8rows))).enterprise_value = some (-5) ∧
    (calcValuationMetrics (.ok (some c8rows))).ebitda_ev = some ((3 : ℚ) / -5) ∧
    (calcValuationMetrics (.ok (some c8rows))).ebitda_ev ≠ none := by
  rw [c8_calc_eval]
  exact ⟨rfl, rfl, by simp [c8result]⟩

/-- C8 (amended): `ebitda_ev` is set exactly when both `ebitda` and
`enterprise_value` are non-null and nonzero (Python truthiness), in which
case it equals `ebitda / enterprise_value` — the sign of the enterprise
value is not checked, so a nonzero negative enterprise value produces a
computed (negative) ratio, while a zero or null ebitda or enterprise value
leaves the ratio as it was (null in the pipeline). -/
theorem c8_amended_truthiness_guard (m : ValuationMetrics) :
    (∀ e v : ℚ, m.ebitda = some e → m.enterprise_value = some v →
      e ≠ 0 → v ≠ 0 → (applyEbitdaEv m).ebitda_ev = some (e / v)) ∧
    ((m.ebitda = none ∨ m.ebitda = some 0 ∨ m.enterprise_value = none ∨
        m.enterprise_value = some 0) →
      (applyEbitdaEv m).ebitda_ev = m.ebitda_ev) := by
  constructor
  · intro e v he hv he0 hv0
    simp [applyEbitdaEv, he, hv, he0, hv0]
  · intro hcase
    rcases hcase with h | h | h | h <;>
      cases hm : m.ebitda <;> cases hv : m.enterprise_value <;>
        simp_all [applyEbitdaEv]

/-- C8 amended witness: nonzero ebitda and negative nonzero enterprise
value give the computed ratio. -/
theorem c8_amended_witness : (applyEbitdaEv c8m8).ebitda_ev = some ((3 : ℚ) / (-5)) :=
  (c8_amended_truthiness_guard c8m8).1 3 (-5) rfl rfl (by norm_num) (by norm_num)

/-! Claim C3. -/

theorem runSteps_stops :
    ∀ (pre : List (ValuationMetrics → Except Unit ValuationMetrics))
      (s : ValuationMetrics → Except Unit ValuationMetrics)
      (post : List (ValuationMetrics → Except Unit ValuationMetrics))
      (m m' : ValuationMetrics),
      runStepsOk pre m = some m' → s m' = .error () →
      runSteps (pre ++ s :: post) m = m' := by
  intro pre
  induction pre with
  | nil =>
    intro s post m m' hok herr
    simp only [runStepsOk] at hok
    cases hok
    simp only [List.nil_append, runSteps, herr]
  | cons p rest ih =>
    intro s post m m' hok herr
    simp only [runStepsOk] at hok
    cases hp : p m with
    | error e => rw [hp] at hok; cases hok
    | ok m1 =>
      rw [hp] at hok
      simp only [List.cons_append, runSteps, hp]
      exact ih s post m1 m' hok herr

/-- When every step of an initial segment succeeds, `runSteps` continues
past it with the accumulated state. -/
theorem runSteps_ok_append :
    ∀ (pre : List (ValuationMetrics → Except Unit ValuationMetrics))
      (post : List (ValuationMetrics → Except Unit ValuationMetrics))
      (m m' : ValuationMetrics),
      runStepsOk pre m = some m' →
      runSteps (pre ++ post) m = runSteps post m' := by
  intro pre
  induction pre with
  | nil =>
    intro post m m' hok
    simp only [runStepsOk] at hok
    cases hok
    simp
  | cons p rest ih =>
    intro post m m' hok
    simp only [runStepsOk] at hok
    cases hp : p m with
    | error e => rw [hp] at hok; cases hok
    | ok m1 =>
      rw [hp] at hok
      simp only [List.cons_append, runSteps, hp]
      exact ih post m1 m' hok

/-- A table whose Trailing P/E value fails to parse while its Price/Book
value is a perfectly parseable number. -/
def c3rows : ValRows := [("Trailing P/E", "abc"), ("Price/Book (mrq)", "2.5")]

/-- C3 counterexample: the Trailing P/E `float()` failure prevents the
Price/Book field from being computed even though Price/Book's own input
parses — the fields are not computed independently. -/
theorem c3_counterexample :
    (calcValuationMetrics (.ok (some c3rows))).pb_ratio = none ∧
    pyFloat "2.5" = some (5 / 2) ∧
    (none : Option ℚ) ≠ some (5 / 2) := by
  refine ⟨rfl, ?_, by simp⟩
  simp +decide [pyFloat, pyFloatChars, parseUnsigned, trimWs, digitsToNat,
    List.dropWhile, List.takeWhile]
  norm_num

/-- C3 (amended): the computation never raises — a failed valuation fetch
(or one returning no rows) yields the all-null metrics — and the field
extractions run sequentially under a single exception handler: when every
step of an initial segment succeeds and the next step's `float()` parse
fails, the result is exactly the metrics accumulated before the failing
step, every field assigned by a later step remaining null.  A parse
failure in an earlier field therefore does block the remaining fields. -/
theorem c3_amended_sequential_abort :
    (∀ u : Unit, calcValuationMetrics (.error u) = emptyValuation) ∧
    calcValuationMetrics (.ok none) = emptyValuation ∧
    (∀ (rows : ValRows)
      (pre : List (ValuationMetrics → Except Unit ValuationMetrics))
      (s : ValuationMetrics → Except Unit ValuationMetrics)
      (post : List (ValuationMetrics → Except Unit ValuationMetrics))
      (m' : ValuationMetrics),
      rows ≠ [] →
      valSteps rows = pre ++ s :: post →
      runStepsOk pre emptyValuation = some m' →
      s m' = .error () →
      calcValuationMetrics (.ok (some rows)) = m') := by
  refine ⟨fun _ => rfl, rfl, ?_⟩
  intro rows pre s post m' hrows hsteps hok herr
  simp only [calcValuationMetrics]
  rw [if_neg (by simpa using hrows)]
  rw [hsteps]
  exact runSteps_stops pre s post emptyValuation m' hok herr

/-- C3 amended witness: on `c3rows` the very first step fails, so the
result is the all-null metrics. -/
theorem c3_amended_witness : calcValuationMetrics (.ok (some c3rows)) = emptyValuation :=
  c3_amended_sequential_abort.2.2 c3rows []
    (stepParse "Trailing P/E" (fun m q => { m with pe_ratio := some q }) c3rows)
    ((valSteps c3rows).tail) emptyValuation (by simp [c3rows]) rfl rfl rfl

/-! Claim C6. -/

/-- C6: whenever `get_metrics` returns a record, the record passed the
momentum validity check, so each required numeric field is finite — not
NaN and not ±inf (and, the fields being numpy floats produced by the
calculator, never null); a combined record failing the check is turned
into `None` and is never handed to the batch aggregator. -/
theorem c6_invalid_records_discarded (hO : HistOracle) (vO : ValOracle)
    (t : String) (r : MetricsRecord)
    (h : (getMetricsRun hO vO t).1 = some r) :
    validateMomentumMetrics r = true ∧
    r.last_price.isFiniteB = true ∧ r.ma_100.isFiniteB = true ∧
    r.ema_100.isFiniteB = true ∧ r.pct_above_ma_100.isFiniteB = true ∧
    r.pct_above_ema_100.isFiniteB = true := by
  unfold getMetricsRun at h
  cases hh : hO t with
  | error e => rw [hh] at h; simp at h
  | ok o =>
    rw [hh] at h
    cases o with
    | none => simp at h
    | some closes =>
      dsimp only at h
      by_cases hlen : closes.length < 100
      · rw [if_pos hlen] at h; simp at h
      · rw [if_neg hlen] at h
        cases hm : calculateMomentumMetrics closes with
        | error e => rw [hm] at h; simp at h
        | ok mom =>
          rw [hm] at h
          simp only at h
          by_cases hv : validateMomentumMetrics
              (combineMetrics t mom (calcValuationMetrics (vO t))) = true
          · rw [if_pos hv] at h
            cases h
            refine ⟨hv, ?_⟩
            have hv' := hv
            simp only [validateMomentumMetrics, Bool.and_eq_true] at hv'
            tauto
          · rw [if_neg hv] at h
            simp at h

/-- C6 witness: a concrete run that returns a record, all of whose
required fields are finite. -/
theorem c6_witness :
    (getMetricsRun onesHist errVal "AAPL").1 = some (recOnes "AAPL") ∧
    (validateMomentumMetrics (recOnes "AAPL") = true ∧
     (recOnes "AAPL").last_price.isFiniteB = true ∧
     (recOnes "AAPL").ma_100.isFiniteB = true ∧
     (recOnes "AAPL").ema_100.isFiniteB = true ∧
     (recOnes "AAPL").pct_above_ma_100.isFiniteB = true ∧
     (recOnes "AAPL").pct_above_ema_100.isFiniteB = true) :=
  ⟨by rw [getMetricsRun_ones],
   c6_invalid_records_discarded onesHist errVal "AAPL" (recOnes "AAPL")
     (by rw [getMetricsRun_ones])⟩

/-! Claim C5. -/

/-- 100 bars whose closes average to exactly zero, last close −1. -/
def c5closes : List ℚ := List.replicate 50 (1:ℚ) ++ List.replicate 50 (-1)

theorem c5closes_length : c5closes.length = 100 := by
  simp [c5closes]

theorem ma100_c5closes : ma100 c5closes = 0 := by
  unfold ma100
  rw [c5closes_length]
  simp only [Nat.sub_self, List.drop_zero, c5closes, List.sum_append, List.sum_replicate]
  norm_num

theorem getLast_c5closes : c5closes.getLast? = some (-1) := by
  unfold c5closes
  rw [show List.replicate 50 (-1:ℚ) = List.replicate 49 (-1) ++ [-1] from by
    rw [← List.replicate_succ']]
  rw [← List.append_assoc]
  exact List.getLast?_concat _

/-- On a zero moving average the percentage expression is an IEEE special
value, never finite and never the claimed 0. -/
theorem pctAbove_zero_not_finite (last : ℚ) :
    (pctAbove last 0).isFiniteB = false ∧ pctAbove last 0 ≠ PyF.fin 0 := by
  unfold pctAbove
  rw [if_pos rfl]
  split
  · exact ⟨rfl, by simp⟩
  · split
    · exact ⟨rfl, by simp⟩
    · exact ⟨rfl, by simp⟩

/-- C5 counterexample: on 100 bars averaging to zero with last close −1,
`pct_above_ma_100` is −inf (numpy division by zero), not the claimed 0. -/
theorem c5_counterexample :
    (calculateMomentumMetrics c5closes).toOption.map (·.pct_above_ma_100) =
      some PyF.ninf ∧ PyF.ninf ≠ PyF.fin 0 := by
  constructor
  · unfold calculateMomentumMetrics
    rw [if_neg (by rw [c5closes_length]; omega)]
    simp only [Except.toOption, Option.map_some]
    rw [ma100_c5closes, getLast_c5closes]
    simp only [Option.getD_some]
    unfold pctAbove
    norm_num
  · simp

/-- C5 (amended): the percentage formulas carry no zero-guard — on any
series of at least 100 bars the computation succeeds without raising, and
whenever `ma_100` is zero, `pct_above_ma_100` is the numpy value of
`(last - 0) / 0 * 100` (±inf or NaN, never a finite number and never 0),
so the combined record is rejected by `_validate_momentum_metrics` instead
of being returned. -/
theorem c5_amended_no_zero_guard (closes : List ℚ) (t : String)
    (vm : ValuationMetrics) (hlen : 100 ≤ closes.length)
    (hma : ma100 closes = 0) :
    ∃ m, calculateMomentumMetrics closes = .ok m ∧
      m.pct_above_ma_100 = pctAbove ((closes.getLast?).getD 0) 0 ∧
      m.pct_above_ma_100.isFiniteB = false ∧
      m.pct_above_ma_100 ≠ PyF.fin 0 ∧
      validateMomentumMetrics (combineMetrics t m vm) = false := by
  have hnot : ¬ closes.length < 100 := by omega
  have heq : calculateMomentumMetrics closes = .ok
      ⟨.fin ((closes.getLast?).getD 0), .fin (ma100 closes),
       .fin (emaAdjLast (2 / 101) closes),
       pctAbove ((closes.getLast?).getD 0) (ma100 closes),
       pctAbove ((closes.getLast?).getD 0) (emaAdjLast (2 / 101) closes)⟩ := by
    unfold calculateMomentumMetrics
    rw [if_neg hnot]
  refine ⟨_, heq, ?_, ?_, ?_, ?_⟩
  · simp only [hma]
  · simp only [hma]
    exact (pctAbove_zero_not_finite _).1
  · simp only [hma]
    exact (pctAbove_zero_not_finite _).2
  · simp only [validateMomentumMetrics, combineMetrics, hma]
    rw [(pctAbove_zero_not_finite ((closes.getLast?).getD 0)).1]
    simp

/-- C5 amended witness at the concrete zero-mean series. -/
theorem c5_amended_witness :
    100 ≤ c5closes.length ∧ ma100 c5closes = 0 ∧
    ∃ m, calculateMomentumMetrics c5closes = .ok m ∧
      m.pct_above_ma_100 = pctAbove ((c5closes.getLast?).getD 0) 0 ∧
      m.pct_above_ma_100.isFiniteB = false ∧
      m.pct_above_ma_100 ≠ PyF.fin 0 ∧
      validateMomentumMetrics (combineMetrics "GLD" m emptyValuation) = false :=
  ⟨by rw [c5closes_length], ma100_c5closes,
   c5_amended_no_zero_guard c5closes "GLD" emptyValuation
     (by rw [c5closes_length]) ma100_c5closes⟩

/-! Claim C4. -/

/-- `calculate_momentum_metrics` on at least 100 bars succeeds with the
five computed fields. -/
theorem calculateMomentumMetrics_ok (closes : List ℚ)
    (h : ¬ closes.length < 100) :
    calculateMomentumMetrics closes = .ok
      ⟨.fin ((closes.getLast?).getD 0), .fin (ma100 closes),
       .fin (emaAdjLast (2 / 101) closes),
       pctAbove ((closes.getLast?).getD 0) (ma100 closes),
       pctAbove ((closes.getLast?).getD 0) (emaAdjLast (2 / 101) closes)⟩ := by
  unfold calculateMomentumMetrics
  rw [if_neg h]

theorem sum_take_reverse (l : List ℚ) (k : ℕ) (hk : k ≤ l.length) :
    (l.reverse.take k).sum = (l.drop (l.length - k)).sum := by
  conv_lhs => rw [← List.take_append_drop (l.length - k) l, List.reverse_append]
  rw [List.take_left' (by rw [List.length_reverse, List.length_drop]; omega)]
  exact List.sum_reverse _

theorem foldl_num_zeros (r : ℚ) : ∀ (n : ℕ) (a : ℚ),
    (List.replicate n (0:ℚ)).foldl (fun x y => x * r + y) a = a * r ^ n := by
  intro n
  induction n with
  | zero => intro a; simp
  | succ k ih =>
    intro a
    simp only [List.replicate_succ, List.foldl_cons]
    rw [ih, add_zero, pow_succ]
    ring

theorem foldl_rec_zeros (r α : ℚ) : ∀ (n : ℕ) (a : ℚ),
    (List.replicate n (0:ℚ)).foldl (fun y c => r * y + α * c) a = r ^ n * a := by
  intro n
  induction n with
  | zero => intro a; simp
  | succ k ih =>
    intro a
    simp only [List.replicate_succ, List.foldl_cons]
    rw [mul_zero, add_zero, ih, pow_succ]
    ring

/-- 100 bars: 99 zero closes, then a close of 1. -/
def c4closes : List ℚ := List.replicate 99 (0:ℚ) ++ [1]

theorem c4closes_length : c4closes.length = 100 := by
  simp [c4closes]

/-- The pandas adjusted ewm value on `c4closes`: the full 100-position
weight total in the denominator, only the newest bar contributing to the
numerator. -/
theorem emaAdjLast_c4closes :
    emaAdjLast (2 / 101) c4closes =
      1 / ∑ i in Finset.range 100, ((99:ℚ)/101) ^ i := by
  have hr : (1:ℚ) - 2 / 101 = 99 / 101 := by norm_num
  unfold emaAdjLast
  rw [foldl_emaStep_split]
  simp only
  rw [hr, foldl_den_eq_sum, show c4closes.length = 100 from c4closes_length]
  congr 1
  show c4closes.foldl (fun x y => x * (99/101) + y) 0 = 1
  unfold c4closes
  rw [List.foldl_append]
  simp only [List.foldl_cons, List.foldl_nil]
  rw [foldl_num_zeros]
  norm_num

/-- The spec's recursive (unadjusted) EMA on `c4closes` is exactly α. -/
theorem emaRecursiveSpec_c4closes :
    emaRecursiveSpec (2 / 101) c4closes = 2 / 101 := by
  have hsplit : c4closes = 0 :: (List.replicate 98 (0:ℚ) ++ [1]) := by
    unfold c4closes
    rw [show (99:ℕ) = 98 + 1 from rfl, List.replicate_succ, List.cons_append]
  rw [hsplit]
  simp only [emaRecursiveSpec]
  rw [List.foldl_append]
  simp only [List.foldl_cons, List.foldl_nil]
  rw [foldl_rec_zeros]
  ring

theorem geom_sum_99_101_bounds :
    0 < ∑ i in Finset.range 100, ((99:ℚ)/101) ^ i ∧
    (∑ i in Finset.range 100, ((99:ℚ)/101) ^ i) < 101 / 2 := by
  have hS : (∑ i in Finset.range 100, ((99:ℚ)/101) ^ i) =
      (1 - ((99:ℚ)/101) ^ 100) * (101 / 2) := by
    rw [geom_sum_eq (by norm_num : ((99:ℚ)/101) ≠ 1) 100,
      div_eq_iff (by norm_num : ((99:ℚ)/101) - 1 ≠ 0)]
    ring_nf
  have h0 : (0:ℚ) < ((99:ℚ)/101) ^ 100 := by positivity
  have h1 : ((99:ℚ)/101) ^ 100 < 1 :=
    pow_lt_one₀ (by norm_num) (by norm_num) (by norm_num)
  rw [hS]
  constructor <;> nlinarith

/-- C4 counterexample: on the 100-bar series with 99 zero closes and a
final close of 1, the code's `ewm(span=100).mean()` (pandas default
`adjust=True`) yields `1 / Σ_{i<100} (99/101)^i`, which differs from the
value `2/101` of the claimed standard recursive (unadjusted) EMA. -/
theorem c4_counterexample :
    c4closes.length = 100 ∧
    (calculateMomentumMetrics c4closes).toOption.map (·.ema_100) =
      some (PyF.fin (emaAdjLast (2 / 101) c4closes)) ∧
    emaAdjLast (2 / 101) c4closes ≠ emaRecursiveSpec (2 / 101) c4closes := by
  refine ⟨c4closes_length, ?_, ?_⟩
  · rw [calculateMomentumMetrics_ok c4closes (by rw [c4closes_length]; omega)]
    rfl
  · rw [emaAdjLast_c4closes, emaRecursiveSpec_c4closes]
    have hb := geom_sum_99_101_bounds
    intro h
    rw [div_eq_div_iff hb.1.ne' (by norm_num : (101:ℚ) ≠ 0)] at h
    nlinarith [hb.2]

/-- C4 (amended): on every series of at least 100 bars the momentum
computation succeeds, `ma_100` is the arithmetic mean of the last 100
closes, and `ema_100` is pandas' *adjusted* exponentially weighted mean
over the whole series with α = 2/101 — the normalized weighted average
`Σ (99/101)^i · x_(n-1-i) / Σ (99/101)^i` — not the spec's plain recursive
(unadjusted) EMA. -/
theorem c4_amended_adjusted_ema (closes : List ℚ) (hlen : 100 ≤ closes.length) :
    ∃ m, calculateMomentumMetrics closes = .ok m ∧
      m.ma_100 = .fin ((closes.reverse.take 100).sum / 100) ∧
      m.ema_100 = .fin
        ((∑ i in Finset.range closes.length, ((99:ℚ)/101) ^ i * closes.reverse.getD i 0) /
         (∑ i in Finset.range closes.length, ((99:ℚ)/101) ^ i)) := by
  have hnot : ¬ closes.length < 100 := by omega
  refine ⟨_, calculateMomentumMetrics_ok closes hnot, ?_, ?_⟩
  · show PyF.fin (ma100 closes) = _
    unfold ma100
    rw [sum_take_reverse closes 100 hlen]
  · show PyF.fin (emaAdjLast (2 / 101) closes) = _
    have hr : (1:ℚ) - 2 / 101 = 99 / 101 := by norm_num
    unfold emaAdjLast
    rw [foldl_emaStep_split]
    simp only
    rw [hr, foldl_num_eq_sum, foldl_den_eq_sum]

/-- C4 amended witness on a concrete constant series. -/
theorem c4_amended_witness :
    100 ≤ (List.replicate 100 (1:ℚ)).length ∧
    ∃ m, calculateMomentumMetrics (List.replicate 100 (1:ℚ)) = .ok m ∧
      m.ma_100 = .fin (((List.replicate 100 (1:ℚ)).reverse.take 100).sum / 100) ∧
      m.ema_100 = .fin
        ((∑ i in Finset.range (List.replicate 100 (1:ℚ)).length,
            ((99:ℚ)/101) ^ i * (List.replicate 100 (1:ℚ)).reverse.getD i 0) /
         (∑ i in Finset.range (List.replicate 100 (1:ℚ)).length, ((99:ℚ)/101) ^ i)) :=
  ⟨by simp, c4_amended_adjusted_ema (List.replicate 100 (1:ℚ)) (by simp)⟩

end TradingGui
